import Mathlib

/-!
Shallow embedding of the revm-style EVM engine of this repository.

Each definition is translated from the repository's source:
  * `src/src/evm_impl.rs` — top-level `call`/`create` driver, `finalize`,
    `initialization`, `call_inner`/`create_inner` depth checks, `code_hash`.
  * `src/src/opcode/gas/calc.rs` — `sstore_cost`, `sstore_refund`.
  * `src/crates/revm/src/instructions/misc.rs` — `jump`.
  * `src/crates/revm/src/db/states/bundle_state.rs` — `BundleState`
    `extend`, `revert_latest`, `revert`.

Machine integers are modelled as `Nat` (u64/U256/H256 values) or `Int`
(the signed refund counter); 256-bit words in the storage claims only ever
get compared against zero and each other, so `Nat` is a faithful carrier.
Parts of the repository that the sampled sources reference but that are not
under `src/` (the gas-constant table, the `Spec` trait constants, the `Gas`
struct, the contract jump-dest analysis, the bundle-account helpers) are
modelled from the specification and carry a doc comment saying so.
-/

namespace RevmModel

/-! ## Hardfork spec ids

Modelled from the spec: `SpecId` is a totally ordered enumeration and
`SPEC::enabled(fork)` holds iff the spec id is at or after `fork`
(`spec.rs` is not under `src/`). Only the relative order of the forks
matters; the numerals below follow the usual mainnet order. -/

/-- Spec id of the Frontier hardfork (the first one; enabled in every spec). -/
def FRONTIER : Nat := 0

/-- Spec id of the Istanbul hardfork. -/
def ISTANBUL : Nat := 7

/-- Spec id of the Berlin hardfork. -/
def BERLIN : Nat := 9

/-- Spec id of the London hardfork. -/
def LONDON : Nat := 10

/-- Modelled from the spec: `SPEC::enabled(fork)` — the spec with id `s`
has hardfork `fork` enabled iff `fork ≤ s`. -/
def enabled (s fork : Nat) : Bool := fork ≤ s

/-! ## Exit reasons (`error.rs` variants used by the sampled sources) -/

/-- Exit reasons of the engine restricted to the variants the sampled
sources produce (`ExitError` / `ExitRevert` / `ExitSucceed` in the code). -/
inductive ExitReason where
  | succeedStopped
  | succeedReturned
  | revert
  | outOfGas
  | outOfFund
  | callTooDeep
  | createCollision
  | invalidJump
  deriving DecidableEq, Repr

/-! ## Gas

Modelled from the spec: the `Gas` struct (`machine/gas.rs` is not under
`src/`) carries `limit`, `used` and a signed `refunded` counter;
`spend()` returns the used gas, `remaining()` the gas left, and
`record_cost(n)` returns false iff charging `n` would overflow the limit. -/

/-- Gas counters of one top-level transaction. Modelled from the spec:
fields `limit`, `used`, `refunded (signed)` of the `Gas` struct. -/
structure Gas where
  limit : Nat
  used : Nat
  refunded : Int
  deriving DecidableEq, Repr

/-- Modelled from the spec: `Gas::spend()` — the gas used so far. -/
def Gas.spend (g : Gas) : Nat := g.used

/-- Modelled from the spec: `Gas::remaining()` — the gas left under the limit. -/
def Gas.remaining (g : Gas) : Nat := g.limit - g.used

/-- Modelled from the spec: `Gas::record_cost(n)` succeeds iff the new total
stays within the limit. -/
def Gas.recordCostOk (g : Gas) (n : Nat) : Bool := g.used + n ≤ g.limit

/-- The `as u64` cast of a signed 64-bit value: wraps modulo `2^64`. -/
def u64wrap (i : Int) : Nat := (i % (2 ^ 64)).toNat

/-! ## `finalize` (src/src/evm_impl.rs lines 158-170)

`finalize` computes `gas_refunded = min(gas.refunded() as u64, gas.spend() / 2)`,
credits the caller `gas_price * (gas.remaining() + gas_refunded)` and the
coinbase `gas_price * (gas.spend() - gas_refunded)`. Note the divisor 2 is
hardcoded; no spec id is consulted. The function returns the three numbers
(capped refund, caller credit, coinbase credit). -/

/-- Embedding of `EVMImpl::finalize`: the capped refund and the two balance
credits it performs, from `src/src/evm_impl.rs:158-170`. -/
def finalize (gasPrice : Nat) (g : Gas) : Nat × Nat × Nat :=
  let gasRefunded := min (u64wrap g.refunded) (g.spend / 2)
  (gasRefunded, gasPrice * (g.remaining + gasRefunded), gasPrice * (g.spend - gasRefunded))

/-- The refund cap as the spec sentence states it: divisor 5 from London
onward, 2 before, selected by the spec id. This definition follows the
claim's words, to be compared against `finalize`. -/
def finalizeCapClaim (s : Nat) (g : Gas) : Nat :=
  min (u64wrap g.refunded) (g.spend / (if enabled s LONDON then 5 else 2))

/-! ## Intrinsic gas (`initialization`, src/src/evm_impl.rs lines 184-232) -/

/-- Modelled from the spec: `gas::TRANSACTION_ZERO_DATA` (`constants.rs` is
not under `src/`) — 4 gas per zero input byte. -/
def TRANSACTION_ZERO_DATA : Nat := 4

/-- Modelled from the spec: `gas::TRANSACTION_NON_ZERO_DATA_INIT` — 16 gas
per non-zero input byte (EIP-2028 value). -/
def TRANSACTION_NON_ZERO_DATA_INIT : Nat := 16

/-- Modelled from the spec: `gas::TRANSACTION_NON_ZERO_DATA_FRONTIER` — 68
gas per non-zero input byte before EIP-2028. -/
def TRANSACTION_NON_ZERO_DATA_FRONTIER : Nat := 68

/-- Modelled from the spec: `gas::ACCESS_LIST_ADDRESS` — 2400 gas per
access-list address. -/
def ACCESS_LIST_ADDRESS : Nat := 2400

/-- Modelled from the spec: `gas::ACCESS_LIST_STORAGE_KEY` — 1900 gas per
access-list storage key. -/
def ACCESS_LIST_STORAGE_KEY : Nat := 1900

/-- Embedding of `EVMImpl::initialization` (src/src/evm_impl.rs:184-232):
the intrinsic gas of a transaction. `input` is the byte list of the call
data (or init code), `accessList` pairs each address with its storage
keys. The source selects the non-zero-byte price by `SPEC::enabled(BERLIN)`
and falls back through `SPEC::enabled(FRONTIER)` (always true). -/
def initialization (s : Nat) (input : List Nat) (isCreate : Bool)
    (accessList : List (Nat × List Nat)) : Nat :=
  let zeroDataLen := (input.filter (fun v => v = 0)).length
  let nonZeroDataLen := input.length - zeroDataLen
  let accessedAccounts := accessList.length
  let accessedSlots := (accessList.map (fun p => p.2.length)).foldl (· + ·) 0
  let transact := if isCreate then (if enabled s ISTANBUL then 53000 else 21000) else 21000
  let gasTransactionNonZeroData :=
    if enabled s BERLIN then TRANSACTION_NON_ZERO_DATA_INIT
    else if enabled s FRONTIER then TRANSACTION_NON_ZERO_DATA_FRONTIER
    else TRANSACTION_NON_ZERO_DATA_INIT
  transact
    + zeroDataLen * TRANSACTION_ZERO_DATA
    + nonZeroDataLen * gasTransactionNonZeroData
    + accessedAccounts * ACCESS_LIST_ADDRESS
    + accessedSlots * ACCESS_LIST_STORAGE_KEY

/-- The intrinsic gas as the claim states it: the 16-per-non-zero-byte price
applies from Istanbul onward (68 before Istanbul). This definition follows
the claim's words, to be compared against `initialization`. -/
def intrinsicGasClaim (s : Nat) (input : List Nat)
    (accessList : List (Nat × List Nat)) : Nat :=
  let zeroDataLen := (input.filter (fun v => v = 0)).length
  let nonZeroDataLen := input.length - zeroDataLen
  let accessedSlots := (accessList.map (fun p => p.2.length)).foldl (· + ·) 0
  21000
    + zeroDataLen * 4
    + nonZeroDataLen * (if enabled s ISTANBUL then 16 else 68)
    + accessList.length * 2400
    + accessedSlots * 1900

/-! ## Early rejection paths of `call` / `create`
(src/src/evm_impl.rs lines 30-92 and 94-138)

`call` first charges the intrinsic gas (`OutOfGas` with gas-spent 0 and an
empty state on failure), then subtracts `gas_limit * gas_price` from the
caller (`OutOfFund` with gas-spent 0 and an empty state on failure).
`create` performs the two checks in the opposite order. `none` means the
transaction passes both checks and execution proceeds. The returned state
map is the third component; both rejection paths return `State::default()`
or `State::new()`, i.e. the empty map. -/

/-- Result of a transaction rejected before execution: exit reason, the
returned gas-spent value, and the returned `State` map (address ↦ account
marker; only emptiness matters for the claims, the entries are never
constructed on these paths). -/
structure EarlyExit where
  reason : ExitReason
  gasSpent : Nat
  state : List (Nat × Nat)
  deriving DecidableEq, Repr

/-- Embedding of the rejection prefix of `EVMImpl::call`
(src/src/evm_impl.rs:30-92): intrinsic-gas check first, then the
balance check against `gas_limit * gas_price`. -/
def callEarly (s : Nat) (callerBalance gasLimit gasPrice : Nat)
    (input : List Nat) (accessList : List (Nat × List Nat)) : Option EarlyExit :=
  if ¬ (Gas.recordCostOk ⟨gasLimit, 0, 0⟩ (initialization s input false accessList)) then
    some ⟨.outOfGas, 0, []⟩
  else if callerBalance < gasLimit * gasPrice then
    some ⟨.outOfFund, 0, []⟩
  else none

/-- Embedding of the rejection prefix of `EVMImpl::create`
(src/src/evm_impl.rs:94-138): balance check first, then the
intrinsic-gas check. -/
def createEarly (s : Nat) (callerBalance gasLimit gasPrice : Nat)
    (initCode : List Nat) (accessList : List (Nat × List Nat)) : Option EarlyExit :=
  if callerBalance < gasLimit * gasPrice then
    some ⟨.outOfFund, 0, []⟩
  else if ¬ (Gas.recordCostOk ⟨gasLimit, 0, 0⟩ (initialization s initCode true accessList)) then
    some ⟨.outOfGas, 0, []⟩
  else none

/-! ## Call-stack depth checks
(src/src/evm_impl.rs lines 234-253 and 326-345) -/

/-- Modelled from the spec: `machine::CALL_STACK_LIMIT` — the call stack is
bounded by depth 1024 (`machine.rs` is not under `src/`). -/
def CALL_STACK_LIMIT : Nat := 1024

/-- Embedding of the depth check of `EVMImpl::create_inner`
(src/src/evm_impl.rs:247-249): reject with `CallTooDeep` when
`depth > CALL_STACK_LIMIT`. -/
def createInnerDepthCheck (depth : Nat) : Option ExitReason :=
  if CALL_STACK_LIMIT < depth then some .callTooDeep else none

/-- Embedding of the depth check of `EVMImpl::call_inner`
(src/src/evm_impl.rs:341-345): reject with `CallTooDeep` when
`depth > CALL_STACK_LIMIT + 1` (the source's geth-compatible `+ 1`). -/
def callInnerDepthCheck (depth : Nat) : Option ExitReason :=
  if CALL_STACK_LIMIT + 1 < depth then some .callTooDeep else none

/-- The depth check as the claim states it: every frame entered at depth
greater than 1024 is rejected. This definition follows the claim's words,
to be compared against `callInnerDepthCheck`. -/
def depthCheckClaim (depth : Nat) : Option ExitReason :=
  if 1024 < depth then some .callTooDeep else none

/-! ## Spec constants of the storage opcodes

Modelled from the spec: the `Spec` trait's associated constants and flags
used by `sstore_cost` / `sstore_refund` (`spec.rs` and
`opcode/gas/constants.rs` are not under `src/`). The per-fork values are
the EIP-2200/2929/3529 numbers the spec lists: warm read 100, cold
surcharge 2100, store-set 20000, store-reset (before subtracting the cold
cost) 5000, refund-on-clear 4800, call stipend 2300, legacy SLOAD 800. -/

/-- Spec-trait constants and flags consumed by the storage gas functions.
Modelled from the spec (the `Spec` trait is not under `src/`). -/
structure SpecConsts where
  sstoreGasMetering : Bool
  sstoreRevertUnderStipend : Bool
  increaseStateAccessGas : Bool
  gasStorageReadWarm : Nat
  gasSload : Nat
  gasSloadCold : Nat
  gasSstoreReset : Nat
  gasSstoreSet : Nat
  refundSstoreClears : Int
  callStipend : Nat
  deriving DecidableEq, Repr

/-- Modelled from the spec: a London-era spec instance — EIP-2200 metering,
stipend protection and EIP-2929 access-gas flags all on, with the constant
values the spec lists (100/2100/5000/20000/4800/2300). -/
def londonSpec : SpecConsts :=
  { sstoreGasMetering := true
    sstoreRevertUnderStipend := true
    increaseStateAccessGas := true
    gasStorageReadWarm := 100
    gasSload := 800
    gasSloadCold := 2100
    gasSstoreReset := 5000
    gasSstoreSet := 20000
    refundSstoreClears := 4800
    callStipend := 2300 }

/-! ## `sstore_refund` (src/src/opcode/gas/calc.rs lines 14-59) -/

/-- Embedding of `gas::calc::sstore_refund`
(src/src/opcode/gas/calc.rs:14-59). Storage words are `Nat`;
`H256::default()` is 0. The `u64` subtractions of the source
(`GAS_SSTORE_SET - gas_sload`, `gas_sstore_reset - gas_sload`) are `Nat`
subtractions cast to `Int`, exactly as the `as i64` casts do for these
in-range values. -/
def sstore_refund (S : SpecConsts) (original current new : Nat) : Int :=
  if S.sstoreGasMetering then
    if current = new then 0
    else
      if original = current ∧ new = 0 then S.refundSstoreClears
      else
        let refund1 : Int :=
          if original ≠ 0 then
            if current = 0 then -S.refundSstoreClears
            else if new = 0 then S.refundSstoreClears
            else 0
          else 0
        let p :=
          if S.increaseStateAccessGas then
            (S.gasSstoreReset - S.gasSloadCold, S.gasStorageReadWarm)
          else
            (S.gasSstoreReset, S.gasSload)
        let refund2 : Int :=
          if original = new then
            if original = 0 then ((S.gasSstoreSet - p.2 : Nat) : Int)
            else ((p.1 - p.2 : Nat) : Int)
          else 0
        refund1 + refund2
  else
    if current ≠ 0 ∧ new = 0 then S.refundSstoreClears else 0

/-! ## `sstore_cost` (src/src/opcode/gas/calc.rs lines 177-224) -/

/-- Embedding of `gas::calc::sstore_cost`
(src/src/opcode/gas/calc.rs:177-224). `none` is the source's `None`
(which the interpreter surfaces as `OutOfGas`). -/
def sstore_cost (S : SpecConsts) (original current new gas : Nat)
    (isCold : Bool) : Option Nat :=
  let p :=
    if S.increaseStateAccessGas then
      (S.gasStorageReadWarm, S.gasSstoreReset - S.gasSloadCold)
    else
      (S.gasSload, S.gasSstoreReset)
  if S.sstoreGasMetering then
    if S.sstoreRevertUnderStipend ∧ gas ≤ S.callStipend then none
    else
      let gasCost :=
        if new = current then p.1
        else
          if original = current then
            if original = 0 then S.gasSstoreSet else p.2
          else p.1
      if isCold then some (gasCost + S.gasSloadCold) else some gasCost
  else
    let gasCost :=
      if current = 0 ∧ new ≠ 0 then S.gasSstoreSet else p.2
    if isCold then some (gasCost + S.gasSloadCold) else some gasCost

/-! ## JUMP (src/crates/revm/src/instructions/misc.rs lines 130-143) -/

/-- Modelled from the spec: the contract's JUMPDEST bitmap
(`Contract`'s jump-destination analysis is not under `src/`). Bit `i` is
set iff byte `i` is the opcode `0x5B` and is not inside the immediate
bytes of a preceding `PUSH1..PUSH32` (opcodes 0x60..0x7F, carrying
`op - 0x5F` immediate bytes). -/
def analyzeGo : Nat → List Nat → List Bool
  | _, [] => []
  | 0, _ :: _ => []
  | fuel + 1, op :: rest =>
    if op = 0x5b then true :: analyzeGo fuel rest
    else if 0x60 ≤ op ∧ op ≤ 0x7f then
      let n := op - 0x5f
      (false :: List.replicate (min n rest.length) false) ++ analyzeGo fuel (rest.drop n)
    else false :: analyzeGo fuel rest

/-- The jumpdest scan started with enough fuel (each step of `analyzeGo`
consumes at least one code byte, so `code.length` steps always finish the
scan). -/
def analyze (code : List Nat) : List Bool := analyzeGo code.length code

/-- Modelled from the spec: `Contract::is_valid_jump(pc)` holds iff the
bitmap bit at `pc` is set and `pc < code.len()`. -/
def isValidJump (code : List Nat) (dest : Nat) : Bool :=
  decide (dest < code.length) && (analyze code).getD dest false

/-- Result of the `jump` instruction handler: continue at the given program
counter, or halt the frame. -/
inductive JumpResult where
  | jumpTo (pc : Nat)
  | invalidJump
  deriving DecidableEq, Repr

/-- Embedding of `instructions::misc::jump`
(src/crates/revm/src/instructions/misc.rs:130-143). The popped
destination is a 256-bit word; `as_usize_or_fail!` halts with
`InvalidJump` when it exceeds `usize::MAX` (modelled as `2^64 - 1`). -/
def jumpOp (code : List Nat) (dest : Nat) : JumpResult :=
  if 2 ^ 64 ≤ dest then .invalidJump
  else if isValidJump code dest then .jumpTo dest
  else .invalidJump

/-! ## Accounts and `code_hash` (src/src/evm_impl.rs lines 448-464) -/

/-- Account info record: balance, nonce, stored code hash and optional
materialized code, as in the repository's `AccountInfo`. -/
structure AccountInfo where
  balance : Nat
  nonce : Nat
  codeHash : Nat
  code : Option (List Nat)
  deriving DecidableEq, Repr

/-- Modelled from the spec: `Account::is_empty()` (the subroutine's
`Account` is not under `src/`) — empty iff nonce = 0, balance = 0 and the
code hash is the canonical empty hash `keccak("")`. The keccak function is
a parameter of the model. -/
def isEmptyAcc (keccak : List Nat → Nat) (acc : AccountInfo) : Bool :=
  acc.balance = 0 && acc.nonce = 0 && acc.codeHash = keccak []

/-- Embedding of `Handler::code_hash` for `EVMImpl`
(src/src/evm_impl.rs:448-464): the all-zero hash for an empty account,
otherwise keccak of the account's materialized code
(`code.clone().unwrap_or_default()`). -/
def handlerCodeHash (keccak : List Nat → Nat) (acc : AccountInfo) : Nat :=
  if isEmptyAcc keccak acc then 0 else keccak (acc.code.getD [])

/-! ## Bundle state (src/crates/revm/src/db/states/bundle_state.rs)

`HashMap`s are modelled as association lists with unique keys; iteration
order is the list order (the source's hash-map iteration order is
unspecified, which only matters when several map entries interact — the
theorems below avoid depending on it). -/

/-- Association-list lookup (the model of `HashMap::get`). -/
def alookup {β : Type} : List (Nat × β) → Nat → Option β
  | [], _ => none
  | (a, b) :: t, k => if a = k then some b else alookup t k

/-- Association-list in-place update of an existing key (the model of
mutating an occupied `HashMap` entry). -/
def aupdate {β : Type} : List (Nat × β) → Nat → β → List (Nat × β)
  | [], _, _ => []
  | (a, b) :: t, k, v => if a = k then (a, v) :: t else (a, b) :: aupdate t k v

/-- Association-list removal of a key (the model of `Entry::remove`). -/
def aremove {β : Type} : List (Nat × β) → Nat → List (Nat × β)
  | [], _ => []
  | (a, b) :: t, k => if a = k then t else (a, b) :: aremove t k

/-- One storage slot of a bundle account: original and present value, as in
the repository's `StorageSlot`. -/
structure StorageSlot where
  original : Nat
  present : Nat
  deriving DecidableEq, Repr

/-- Account lifecycle status across the bundle, as in the repository's
`AccountStatus` (the spec lists the eight variants). -/
inductive AccountStatus where
  | loadedNotExisting
  | loaded
  | loadedEmptyEIP161
  | inMemoryChange
  | changed
  | destroyed
  | destroyedChanged
  | destroyedAgain
  deriving DecidableEq, Repr

/-- Modelled from the spec: `AccountStatus::was_destroyed` holds for the
`Destroyed*` lifecycle variants (`account_status.rs` is not under `src/`). -/
def AccountStatus.wasDestroyed : AccountStatus → Bool
  | .destroyed => true
  | .destroyedChanged => true
  | .destroyedAgain => true
  | _ => false

/-- Modelled from the spec: the status transition table applied when a
bundle entry is extended by an upper entry (`transition.rs` is not under
`src/`). The spec names the rows `Destroyed`+`Changed` → `DestroyedChanged`,
`Changed`+`Destroyed` → `Destroyed` and `InMemoryChange`+`Changed` →
`InMemoryChange`; every other pair takes the incoming status. -/
def AccountStatus.transition : AccountStatus → AccountStatus → AccountStatus
  | .destroyed, .changed => .destroyedChanged
  | .changed, .destroyed => .destroyed
  | .inMemoryChange, .changed => .inMemoryChange
  | _, other => other

/-- Per-account info part of a revert, as in the repository's
`AccountInfoRevert`. -/
inductive AccountInfoRevert where
  | doNothing
  | deleteIt
  | revertTo (info : AccountInfo)
  deriving DecidableEq, Repr

/-- Per-slot part of a revert, as in the repository's `RevertToSlot`. -/
inductive RevertToSlot where
  | toValue (v : Nat)
  | wiped
  deriving DecidableEq, Repr

/-- The compressed inverse of one transaction's effect on one account, as
in the repository's `AccountRevert`. -/
structure AccountRevert where
  account : AccountInfoRevert
  storage : List (Nat × RevertToSlot)
  previousStatus : AccountStatus
  wipeStorage : Bool
  deriving DecidableEq, Repr

/-- One account of the bundle, as in the repository's `BundleAccount`. -/
structure BundleAccount where
  info : Option AccountInfo
  originalInfo : Option AccountInfo
  storage : List (Nat × StorageSlot)
  status : AccountStatus
  deriving DecidableEq, Repr

/-- Modelled from the spec: `BundleAccount::was_destroyed` delegates to the
status (`bundle_account.rs` is not under `src/`). -/
def BundleAccount.wasDestroyed (acc : BundleAccount) : Bool :=
  acc.status.wasDestroyed

/-- The block-level bundle, as in the repository's `BundleState`: account
map, created contracts, and the per-transaction reverse-deltas (the last
list element is the most recent transaction's reverts). -/
structure BundleState where
  state : List (Nat × BundleAccount)
  contracts : List (Nat × List Nat)
  reverts : List (List (Nat × AccountRevert))
  deriving DecidableEq, Repr

/-- Modelled from the spec: `BundleAccount::revert(revert)` — applying one
`AccountRevert` to a bundle account (`bundle_account.rs` is not under
`src/`). `DeleteIt` removes the account (`none`); `RevertTo` restores the
info; `wipe_storage` drops the account's storage before the per-slot
entries are applied; a `toValue` entry restores the slot's present value
(inserting a default slot first when the key is absent); a `wiped` entry
removes the slot; the previous status is restored. -/
def BundleAccount.applyRevert (acc : BundleAccount) (r : AccountRevert) :
    Option BundleAccount :=
  match r.account with
  | .deleteIt => none
  | ainfo =>
    let info := match ainfo with
      | .revertTo i => some i
      | _ => acc.info
    let storage0 := if r.wipeStorage then [] else acc.storage
    let storage := r.storage.foldl (fun st p =>
      match p.2 with
      | .toValue v =>
        match alookup st p.1 with
        | some s => aupdate st p.1 { s with present := v }
        | none => st ++ [(p.1, { original := 0, present := v })]
      | .wiped => aremove st p.1) storage0
    some { info := info, originalInfo := acc.originalInfo,
           storage := storage, status := r.previousStatus }

/-- Application of one popped reverts block to the state map, in order, as
the loop body of `BundleState::revert_latest`
(src/crates/revm/src/db/states/bundle_state.rs:411-427) does: each
address must be present (the source's `unreachable!` panic is `none`);
a revert that returns removal deletes the entry. -/
def applyBlock (st : List (Nat × BundleAccount)) :
    List (Nat × AccountRevert) → Option (List (Nat × BundleAccount))
  | [] => some st
  | (a, r) :: rest =>
    match alookup st a with
    | none => none
    | some acc =>
      match acc.applyRevert r with
      | none => applyBlock (aremove st a) rest
      | some acc' => applyBlock (aupdate st a acc') rest

/-- Embedding of `BundleState::revert_latest`
(src/crates/revm/src/db/states/bundle_state.rs:411-427): pop the last
reverts block and apply each per-account revert; `false` when there is no
block to pop. `none` models the source's panic on a revert whose address
is not in the state map. -/
def BundleState.revertLatest (b : BundleState) : Option (BundleState × Bool) :=
  match b.reverts.getLast? with
  | none => some (b, false)
  | some blk =>
    (applyBlock b.state blk).map (fun st =>
      ({ state := st, contracts := b.contracts, reverts := b.reverts.dropLast }, true))

/-- Embedding of `BundleState::revert`
(src/crates/revm/src/db/states/bundle_state.rs:432-444): `revert(0)` does
nothing; otherwise `revert_latest` is applied repeatedly, at most `n`
times, stopping as soon as it returns `false`. -/
def revertN : Nat → BundleState → Option BundleState
  | 0, b => some b
  | n + 1, b =>
    match b.revertLatest with
    | none => none
    | some (b', false) => some b'
    | some (b', true) => revertN n b'

/-- The slot-filling step of `BundleState::extend`
(src/crates/revm/src/db/states/bundle_state.rs:341-346): each slot of the
lower account is inserted into the revert's storage only when its key is
not already present (`entry(..).or_insert(..)`). -/
def fillMissing (rs : List (Nat × RevertToSlot))
    (accStorage : List (Nat × StorageSlot)) : List (Nat × RevertToSlot) :=
  accStorage.foldl (fun acc p =>
    match alookup acc p.1 with
    | some _ => acc
    | none => acc ++ [(p.1, .toValue p.2.present)]) rs

/-- The wipe-revert fixup of `BundleState::extend`
(src/crates/revm/src/db/states/bundle_state.rs:336-353), applied to one
revert entry with the lower bundle's account `this` of the state address
currently being merged: when the revert carries `wipe_storage`, `this`'s
storage is copied in (filling gaps only) and the flag is cleared exactly
when `this` was destroyed. -/
def fixupRevert (this : BundleAccount) (r : AccountRevert) : AccountRevert :=
  if r.wipeStorage then
    { account := r.account
      storage := fillMissing r.storage this.storage
      previousStatus := r.previousStatus
      wipeStorage := if this.wasDestroyed then false else true }
  else r

/-- The storage merge of `BundleState::extend`
(src/crates/revm/src/db/states/bundle_state.rs:358-367): each upper slot
updates the present value of an existing lower slot or is inserted whole. -/
def extendStorage (this other : List (Nat × StorageSlot)) :
    List (Nat × StorageSlot) :=
  other.foldl (fun acc p =>
    match alookup acc p.1 with
    | some s => aupdate acc p.1 { s with present := p.2.present }
    | none => acc ++ [(p.1, p.2)]) this

/-- The per-address loop of `BundleState::extend`
(src/crates/revm/src/db/states/bundle_state.rs:329-376) over the upper
bundle's state entries, threading the lower state map and the upper
bundle's reverts: an overlapping address first rewrites every upper revert
entry (of any address) with `fixupRevert` against the lower account, then
merges storage, info and status; a fresh address is inserted as is. -/
def extendStateLoop :
    List (Nat × BundleAccount) → List (Nat × BundleAccount) →
    List (List (Nat × AccountRevert)) →
    List (Nat × BundleAccount) × List (List (Nat × AccountRevert))
  | st, [], revs => (st, revs)
  | st, (addr, oacc) :: rest, revs =>
    match alookup st addr with
    | some this =>
      let revs' := revs.map (List.map (fun p => (p.1, fixupRevert this p.2)))
      let merged : BundleAccount :=
        { info := oacc.info
          originalInfo := this.originalInfo
          storage :=
            if oacc.wasDestroyed then oacc.storage
            else extendStorage this.storage oacc.storage
          status := this.status.transition oacc.status }
      extendStateLoop (aupdate st addr merged) rest revs'
    | none => extendStateLoop (st ++ [(addr, oacc)]) rest revs

/-- Embedding of `BundleState::extend`
(src/crates/revm/src/db/states/bundle_state.rs:326-381): merge the upper
bundle's state into the lower one (fixing up the upper reverts along the
way), extend the contracts, and append the upper reverts after the lower
ones. -/
def BundleState.extend (b o : BundleState) : BundleState :=
  let p := extendStateLoop b.state o.state o.reverts
  { state := p.1, contracts := b.contracts ++ o.contracts,
    reverts := b.reverts ++ p.2 }

/-- The revert fixup of `extend` as the claim states it: each upper revert
entry with `wipe_storage` receives the storage of the lower bundle's
account at that revert's own address (when such an account exists), and
its flag is cleared exactly when that account was destroyed; the fixed-up
upper reverts are appended after the lower ones. This definition follows
the claim's words, to be compared against `BundleState.extend`. -/
def extendClaimReverts (b o : BundleState) : List (List (Nat × AccountRevert)) :=
  b.reverts ++ o.reverts.map (List.map (fun p =>
    if p.2.wipeStorage then
      match alookup b.state p.1 with
      | some acc => (p.1, fixupRevert acc p.2)
      | none => p
    else p))

/-! ## Theorems -/

/-- C1 (counterexample): at gas used 10 with refund counter 4 under a
post-London spec, `finalize` caps the refund at `min 4 (10 / 2) = 4`,
while the claim's spec-selected divisor 5 would cap it at
`min 4 (10 / 5) = 2`; the claim is false on the code. -/
theorem C1_cap_divisor_cex :
    (finalize 1 ⟨100, 10, 4⟩).1 = 4 ∧
    finalizeCapClaim LONDON ⟨100, 10, 4⟩ = 2 ∧
    ¬ (finalize 1 ⟨100, 10, 4⟩).1 = finalizeCapClaim LONDON ⟨100, 10, 4⟩ := by
  decide

/-- C1 (amended): for every completed top-level call or create, the gas
refund credited at finalization is capped at `spent / 2` regardless of the
spec id (the divisor is hardcoded; no spec-id selection happens); the
capped refund is reimbursed to the caller together with the unspent gas,
the coinbase is credited `gas_price * (spent - capped_refund)`, and the
caller's net expenditure — payment minus reimbursement — is
`gas_price * (spent - capped_refund)`. -/
theorem C1_finalize_refund_cap (price : Nat) (g : Gas) (h0 : 0 ≤ g.refunded)
    (h64 : g.refunded < 2 ^ 64) (hul : g.used ≤ g.limit) :
    finalize price g =
      (min g.refunded.toNat (g.spend / 2),
       price * (g.remaining + min g.refunded.toNat (g.spend / 2)),
       price * (g.spend - min g.refunded.toNat (g.spend / 2))) ∧
    price * g.limit =
      price * (g.remaining + min g.refunded.toNat (g.spend / 2))
        + price * (g.spend - min g.refunded.toNat (g.spend / 2)) := by
  have hwrap : u64wrap g.refunded = g.refunded.toNat := by
    unfold u64wrap
    rw [Int.emod_eq_of_lt h0 h64]
  constructor
  · unfold finalize
    rw [hwrap]
  · rw [← Nat.mul_add]
    have hcap : min g.refunded.toNat (g.spend / 2) ≤ g.spend :=
      le_trans (min_le_right _ _) (Nat.div_le_self _ _)
    have hsum : g.remaining + min g.refunded.toNat (g.spend / 2)
        + (g.spend - min g.refunded.toNat (g.spend / 2)) = g.limit := by
      unfold Gas.remaining Gas.spend at *
      omega
    rw [hsum]

/-- C1 (witness): the amended theorem applied at price 3 and gas counters
`limit 100, used 10, refunded 4`. -/
theorem C1_finalize_witness :
    finalize 3 ⟨100, 10, 4⟩ =
      (min (Int.toNat 4) (10 / 2), 3 * (90 + min (Int.toNat 4) (10 / 2)),
       3 * (10 - min (Int.toNat 4) (10 / 2))) ∧
    3 * 100 =
      3 * (90 + min (Int.toNat 4) (10 / 2)) + 3 * (10 - min (Int.toNat 4) (10 / 2)) :=
  C1_finalize_refund_cap 3 ⟨100, 10, 4⟩ (by decide) (by decide) (by decide)

/-- C3 (counterexample): a call with one non-zero input byte under an
Istanbul (pre-Berlin) spec is charged `21000 + 68` intrinsic gas by the
code, while the claim's Istanbul-onward 16-per-byte price would give
`21000 + 16`; the claim is false on the code. -/
theorem C3_intrinsic_gas_cex :
    initialization ISTANBUL [1] false [] = 21068 ∧
    intrinsicGasClaim ISTANBUL [1] [] = 21016 ∧
    ¬ initialization ISTANBUL [1] false [] = intrinsicGasClaim ISTANBUL [1] [] := by
  decide

/-- C3 (amended): the intrinsic gas of a call transaction equals 21000 plus
4 per zero input byte, plus 16 per non-zero input byte from Berlin onward
(68 before Berlin), plus 2400 per access-list address, plus 1900 per
access-list storage slot; when this exceeds the gas limit the call exits
with `OutOfGas`, gas-spent 0 and an empty state. -/
theorem C3_intrinsic_gas (s cb gl gp : Nat) (input : List Nat)
    (al : List (Nat × List Nat)) :
    initialization s input false al =
      21000 + (input.filter (fun v => v = 0)).length * 4
        + (input.length - (input.filter (fun v => v = 0)).length)
            * (if enabled s BERLIN then 16 else 68)
        + al.length * 2400
        + ((al.map (fun p => p.2.length)).foldl (· + ·) 0) * 1900 ∧
    (gl < initialization s input false al →
      callEarly s cb gl gp input al = some ⟨.outOfGas, 0, []⟩) := by
  constructor
  · unfold initialization
    have hfr : enabled s FRONTIER = true := by
      unfold enabled FRONTIER
      simp
    rw [hfr]
    unfold TRANSACTION_ZERO_DATA TRANSACTION_NON_ZERO_DATA_INIT
      TRANSACTION_NON_ZERO_DATA_FRONTIER ACCESS_LIST_ADDRESS ACCESS_LIST_STORAGE_KEY
    by_cases hb : enabled s BERLIN = true
    · rw [hb]
      simp [hb]
    · simp only [Bool.not_eq_true] at hb
      rw [hb]
      simp [hb]
  · intro h
    have hrc : Gas.recordCostOk ⟨gl, 0, 0⟩ (initialization s input false al) = false := by
      unfold Gas.recordCostOk
      simp only [decide_eq_false_iff_not]
      omega
    unfold callEarly
    rw [hrc]
    simp

/-- C3 (witness): the amended theorem applied at a Berlin spec with input
`[0, 1]` and one access-list entry with one storage key, and at a gas
limit of 100 which the intrinsic gas exceeds. -/
theorem C3_intrinsic_witness :
    initialization BERLIN [0, 1] false [(1, [2])] =
      21000 + 1 * 4 + 1 * (if enabled BERLIN BERLIN then 16 else 68)
        + 1 * 2400 + 1 * 1900 ∧
    callEarly BERLIN 0 100 0 [0, 1] [(1, [2])] = some ⟨.outOfGas, 0, []⟩ := by
  have h := C3_intrinsic_gas BERLIN 0 100 0 [0, 1] [(1, [2])]
  exact ⟨by simpa using h.1, h.2 (by decide)⟩

/-- C4 (counterexample): a call with gas limit 20000 (below the 21000
intrinsic gas) and ample caller balance is rejected with `OutOfGas` and a
returned gas-spent of 0 — the transaction does not consume the gas it
would have paid for (the claim's "still consumes the gas paid" predicts a
non-zero consumption of the 20000-gas purchase); the claim is false on
the code. -/
theorem C4_reject_consumes_cex :
    callEarly LONDON 1000000 20000 1 [] [] = some ⟨.outOfGas, 0, []⟩ ∧
    (0 : Nat) ≠ 20000 := by
  decide

/-- C4 (amended): every transaction rejected by the intrinsic-gas check or
the insufficient-balance check — in `call` (intrinsic first) and in
`create` (balance first) — returns an empty `State`, so no state mutation
is externally visible, and returns a gas-spent of 0 (the transaction
consumes no gas at all). -/
theorem C4_rejection_no_state (s cb gl gp : Nat) (input initCode : List Nat)
    (al al' : List (Nat × List Nat)) (e e' : EarlyExit) :
    (callEarly s cb gl gp input al = some e → e.state = [] ∧ e.gasSpent = 0) ∧
    (createEarly s cb gl gp initCode al' = some e' →
      e'.state = [] ∧ e'.gasSpent = 0) := by
  constructor <;> intro h
  · unfold callEarly at h
    split_ifs at h <;> cases h <;> exact ⟨rfl, rfl⟩
  · unfold createEarly at h
    split_ifs at h <;> cases h <;> exact ⟨rfl, rfl⟩

/-- C4 (witness): the amended theorem applied to a call rejected by the
balance check (balance 0, gas limit 21000, gas price 1). -/
theorem C4_rejection_witness :
    (⟨.outOfFund, 0, []⟩ : EarlyExit).state = [] ∧
    (⟨.outOfFund, 0, []⟩ : EarlyExit).gasSpent = 0 :=
  (C4_rejection_no_state LONDON 0 21000 1 [] [] [] []
    ⟨.outOfFund, 0, []⟩ ⟨.outOfFund, 0, []⟩).1 (by decide)

/-- C5 (counterexample): a call frame entered at depth 1025 is not rejected
by `call_inner`'s depth check (`depth > CALL_STACK_LIMIT + 1`), while the
claim predicts `CallTooDeep` for every frame at depth greater than 1024;
the claim is false on the code. -/
theorem C5_depth_check_cex :
    callInnerDepthCheck 1025 = none ∧ depthCheckClaim 1025 = some .callTooDeep := by
  decide

/-- C5 (amended): a create frame fails its depth check with `CallTooDeep`
exactly when entered at depth greater than 1024, a call frame exactly when
entered at depth greater than 1025 (the source's geth-compatible `+ 1`);
frames at depth at most 1024 are rejected by neither check. -/
theorem C5_depth_checks (d : Nat) :
    (createInnerDepthCheck d = some .callTooDeep ↔ 1024 < d) ∧
    (callInnerDepthCheck d = some .callTooDeep ↔ 1025 < d) ∧
    (d ≤ 1024 → createInnerDepthCheck d = none ∧ callInnerDepthCheck d = none) := by
  unfold createInnerDepthCheck callInnerDepthCheck CALL_STACK_LIMIT
  refine ⟨?_, ?_, ?_⟩
  all_goals split_ifs <;> simp_all
  all_goals omega

/-- C5 (witness): the amended theorem applied at depths 2000 and 1024. -/
theorem C5_depth_witness :
    createInnerDepthCheck 2000 = some .callTooDeep ∧
    callInnerDepthCheck 1024 = none :=
  ⟨(C5_depth_checks 2000).1.mpr (by decide), ((C5_depth_checks 1024).2.2 (by decide)).2⟩

/-- C2: under EIP-2200 metering with the EIP-2929 constants, an SSTORE with
remaining gas at most 2300 fails (returns `none`, surfaced as `OutOfGas`);
otherwise the charge is 100 when `current = new`, else 20000 when
`original = current = 0`, else 2900 when `original = current ≠ 0`, else
100, plus a 2100 cold surcharge exactly when the slot was not yet warm. -/
theorem C2_sstore_cost_eip2200 (o c n g : Nat) (cold : Bool) :
    sstore_cost londonSpec o c n g cold =
      if g ≤ 2300 then none
      else some ((if n = c then 100
                  else if o = c then (if o = 0 then 20000 else 2900) else 100)
                 + (if cold then 2100 else 0)) := by
  unfold sstore_cost londonSpec
  cases cold <;> simp

/-- C6: under EIP-2200 metering with the EIP-3529 constants, the SSTORE
refund is 0 when `current = new`; 4800 on a first modification
(`original = current`) with `original ≠ 0` and `new = 0`; and on a dirty
slot (`original ≠ current`) it is the sum of −4800 when
`original ≠ 0 ∧ current = 0`, +4800 when `original ≠ 0 ∧ new = 0`, and
+(20000 − 100) when `original = new = 0` or +(2900 − 100) when
`original = new ≠ 0`. -/
theorem C6_sstore_refund_eip3529 (o c n : Nat) :
    (c = n → sstore_refund londonSpec o c n = 0) ∧
    (c ≠ n → o = c → o ≠ 0 → n = 0 → sstore_refund londonSpec o c n = 4800) ∧
    (c ≠ n → o ≠ c → sstore_refund londonSpec o c n =
      (if o ≠ 0 ∧ c = 0 then (-4800 : Int)
       else if o ≠ 0 ∧ n = 0 then 4800 else 0)
      + (if o = n then (if o = 0 then (20000 - 100 : Int) else (2900 - 100 : Int))
         else 0)) := by
  unfold sstore_refund londonSpec
  refine ⟨fun h1 => by simp [h1], fun h1 h2 h3 h4 => by simp_all, fun h1 h2 => ?_⟩
  simp only [if_pos rfl, if_neg h1, Bool.true_eq]
  have hoc : ¬ (o = c ∧ n = 0) := fun hx => h2 hx.1
  split_ifs <;> simp_all

/-- C6 (witness): the refund theorem applied at the first-modification
clear (`o = c = 1, n = 0` gives 4800) and at a dirty-slot reset
(`o = 1, c = 0, n = 2` gives −4800). -/
theorem C6_refund_witness :
    sstore_refund londonSpec 1 1 0 = 4800 ∧
    sstore_refund londonSpec 1 0 2 = -4800 := by
  refine ⟨(C6_sstore_refund_eip3529 1 1 0).2.1 (by decide) rfl (by decide) rfl, ?_⟩
  have h := (C6_sstore_refund_eip3529 1 0 2).2.2 (by decide) (by decide)
  simpa using h

/-- C7: the JUMP handler continues at the popped destination `d` if and
only if `d` is below the code length and the jumpdest bitmap marks `d`
(a `0x5B` byte outside every PUSH immediate); otherwise the frame halts
with `InvalidJump`. The code-length bound `2^64` reflects that real code
lengths fit in `usize`. -/
theorem C7_jump_valid (code : List Nat) (d : Nat) (h : code.length ≤ 2 ^ 64) :
    (jumpOp code d = .jumpTo d ↔
      (d < code.length ∧ (analyze code).getD d false = true)) ∧
    (¬ (d < code.length ∧ (analyze code).getD d false = true) →
      jumpOp code d = .invalidJump) := by
  unfold jumpOp isValidJump
  by_cases hbig : 2 ^ 64 ≤ d
  · have hnl : ¬ d < code.length := by omega
    simp [hbig, hnl]
  · simp only [if_neg hbig]
    split_ifs with hv
    · simp only [Bool.and_eq_true, decide_eq_true_eq] at hv
      exact ⟨⟨fun _ => hv, fun _ => rfl⟩, fun hx => absurd hv hx⟩
    · simp only [Bool.and_eq_true, decide_eq_true_eq, not_and_or] at hv
      constructor
      · constructor
        · intro hx
          cases hx
        · intro hx
          rcases hv with hv | hv
          · exact absurd hx.1 hv
          · rw [hx.2] at hv
            cases hv rfl
      · intro _
        rfl

/-- C7 (witness): the jump theorem applied to the code
`PUSH1 0x5B; JUMP; STOP; JUMPDEST`: destination 4 (the real JUMPDEST) is
taken, destination 1 (a 0x5B byte inside the PUSH immediate) halts with
`InvalidJump`. -/
theorem C7_jump_witness :
    jumpOp [0x60, 0x5b, 0x56, 0x00, 0x5b] 4 = .jumpTo 4 ∧
    jumpOp [0x60, 0x5b, 0x56, 0x00, 0x5b] 1 = .invalidJump :=
  ⟨((C7_jump_valid [0x60, 0x5b, 0x56, 0x00, 0x5b] 4 (by decide)).1).mpr (by decide),
   (C7_jump_valid [0x60, 0x5b, 0x56, 0x00, 0x5b] 1 (by decide)).2 (by decide)⟩

/-- C10: for every account and every keccak function whose empty-string
hash is non-zero (as the real keccak-256's is), the Handler's `code_hash`
returns the all-zero hash — not `keccak("")` — when the loaded account is
empty (nonce 0, balance 0, code hash equal to the canonical empty hash),
and returns keccak of the account's materialized code otherwise. -/
theorem C10_code_hash_empty (keccak : List Nat → Nat) (acc : AccountInfo)
    (h : keccak [] ≠ 0) :
    (isEmptyAcc keccak acc = true →
      handlerCodeHash keccak acc = 0 ∧ handlerCodeHash keccak acc ≠ keccak []) ∧
    (isEmptyAcc keccak acc = false →
      handlerCodeHash keccak acc = keccak (acc.code.getD [])) := by
  unfold handlerCodeHash
  constructor
  · intro he
    rw [if_pos he]
    exact ⟨rfl, fun hx => h hx.symm⟩
  · intro he
    rw [if_neg (by simp [he])]

/-- C10 (witness): the code-hash theorem applied with the keccak model
`fun l => l.length + 1` to the empty account `⟨0, 0, 1, none⟩` (result 0)
and the non-empty account `⟨5, 0, 1, some [7]⟩` (result `keccak [7]`). -/
theorem C10_code_hash_witness :
    handlerCodeHash (fun l => l.length + 1) ⟨0, 0, 1, none⟩ = 0 ∧
    handlerCodeHash (fun l => l.length + 1) ⟨5, 0, 1, some [7]⟩ = 2 := by
  refine ⟨((C10_code_hash_empty (fun l => l.length + 1) ⟨0, 0, 1, none⟩
    (by decide)).1 (by decide)).1, ?_⟩
  have h := (C10_code_hash_empty (fun l => l.length + 1) ⟨5, 0, 1, some [7]⟩
    (by decide)).2 (by decide)
  simpa using h

/-- C8: `revert_latest` on an empty reverts sequence returns `false` and
leaves the bundle unchanged (and so does `revert(n)` for every `n`); on a
non-empty reverts sequence it pops the most recent block and undoes
exactly its per-account reverts (provided every revert's address exists —
otherwise the source panics), returning `true`; `revert(0)` is the
identity; and `revert(n+1)` performs one `revert_latest` and then at most
`n` more, stopping early when the pop reported `false`. -/
theorem C8_revert_behavior :
    (∀ b : BundleState, b.reverts = [] →
      b.revertLatest = some (b, false) ∧ ∀ n, revertN n b = some b) ∧
    (∀ (b : BundleState) (rs : List (List (Nat × AccountRevert)))
        (blk : List (Nat × AccountRevert)) (st' : List (Nat × BundleAccount)),
      b.reverts = rs ++ [blk] → applyBlock b.state blk = some st' →
      b.revertLatest = some (⟨st', b.contracts, rs⟩, true)) ∧
    (∀ b : BundleState, revertN 0 b = some b) ∧
    (∀ (n : Nat) (b b' : BundleState),
      (b.revertLatest = some (b', true) → revertN (n + 1) b = revertN n b') ∧
      (b.revertLatest = some (b', false) → revertN (n + 1) b = some b')) := by
  refine ⟨?_, ?_, ?_, ?_⟩
  · intro b hb
    have hlat : b.revertLatest = some (b, false) := by
      unfold BundleState.revertLatest
      rw [hb]
      rfl
    refine ⟨hlat, ?_⟩
    intro n
    cases n with
    | zero => rfl
    | succ n =>
      unfold revertN
      rw [hlat]
  · intro b rs blk st' hb happ
    unfold BundleState.revertLatest
    rw [hb, List.getLast?_concat, List.dropLast_concat]
    simp [happ]
  · intro b
    rfl
  · intro n b b'
    have hstep : revertN (n + 1) b = (match b.revertLatest with
        | none => none
        | some (p, false) => some p
        | some (p, true) => revertN n p) := rfl
    constructor <;> intro h
    · rw [hstep, h]
    · rw [hstep, h]

/-- C8 (witness): the revert theorem applied to a one-account bundle with
one recorded revert (popped and applied, returning `true`), to the empty
bundle (`false`, unchanged) and to `revert(0)`. -/
theorem C8_revert_witness :
    BundleState.revertLatest
        ⟨[(1, ⟨none, none, [], .loaded⟩)], [],
         [[(1, ⟨.revertTo ⟨9, 1, 0, none⟩, [], .changed, false⟩)]]⟩ =
      some (⟨[(1, ⟨some ⟨9, 1, 0, none⟩, none, [], .changed⟩)], [], []⟩, true) ∧
    BundleState.revertLatest ⟨[], [], []⟩ = some (⟨[], [], []⟩, false) ∧
    revertN 0 ⟨[], [], [[]]⟩ = some ⟨[], [], [[]]⟩ :=
  ⟨C8_revert_behavior.2.1
      ⟨[(1, ⟨none, none, [], .loaded⟩)], [],
       [[(1, ⟨.revertTo ⟨9, 1, 0, none⟩, [], .changed, false⟩)]]⟩
      [] [(1, ⟨.revertTo ⟨9, 1, 0, none⟩, [], .changed, false⟩)]
      [(1, ⟨some ⟨9, 1, 0, none⟩, none, [], .changed⟩)] rfl (by decide),
   (C8_revert_behavior.1 ⟨[], [], []⟩ rfl).1,
   C8_revert_behavior.2.2.1 ⟨[], [], [[]]⟩⟩

/-- C9 (counterexample): lower bundle `b` holds accounts at addresses 2
(storage slot 1 ↦ 7) and 5 (storage slot 9 ↦ 3); the upper bundle `o`
holds only address 2 and carries a wipe-storage revert for address 5.
The code copies the slots of `b`'s account at the overlapping state
address 2 into that revert (slot 1 ↦ 7), while the claim predicts the
slots of `b`'s account at the revert's own address 5 (slot 9 ↦ 3); the
claim is false on the code. -/
theorem C9_extend_fixup_cex :
    (BundleState.extend
        ⟨[(2, ⟨none, none, [(1, ⟨0, 7⟩)], .changed⟩),
          (5, ⟨none, none, [(9, ⟨0, 3⟩)], .changed⟩)], [], []⟩
        ⟨[(2, ⟨none, none, [], .changed⟩)], [],
         [[(5, ⟨.doNothing, [], .changed, true⟩)]]⟩).reverts =
      [[(5, ⟨.doNothing, [(1, .toValue 7)], .changed, true⟩)]] ∧
    extendClaimReverts
        ⟨[(2, ⟨none, none, [(1, ⟨0, 7⟩)], .changed⟩),
          (5, ⟨none, none, [(9, ⟨0, 3⟩)], .changed⟩)], [], []⟩
        ⟨[(2, ⟨none, none, [], .changed⟩)], [],
         [[(5, ⟨.doNothing, [], .changed, true⟩)]]⟩ =
      [[(5, ⟨.doNothing, [(9, .toValue 3)], .changed, true⟩)]] ∧
    ¬ (BundleState.extend
        ⟨[(2, ⟨none, none, [(1, ⟨0, 7⟩)], .changed⟩),
          (5, ⟨none, none, [(9, ⟨0, 3⟩)], .changed⟩)], [], []⟩
        ⟨[(2, ⟨none, none, [], .changed⟩)], [],
         [[(5, ⟨.doNothing, [], .changed, true⟩)]]⟩).reverts =
      extendClaimReverts
        ⟨[(2, ⟨none, none, [(1, ⟨0, 7⟩)], .changed⟩),
          (5, ⟨none, none, [(9, ⟨0, 3⟩)], .changed⟩)], [], []⟩
        ⟨[(2, ⟨none, none, [], .changed⟩)], [],
         [[(5, ⟨.doNothing, [], .changed, true⟩)]]⟩ := by
  decide

/-- Updating one key of an association list leaves the lookup of every
other key unchanged. -/
theorem alookup_aupdate_ne {β : Type} (st : List (Nat × β)) (k k' : Nat)
    (v : β) (h : k' ≠ k) : alookup (aupdate st k v) k' = alookup st k' := by
  induction st with
  | nil => rfl
  | cons hd t ih =>
    unfold aupdate alookup
    split_ifs with h1 h2 <;> simp_all [alookup]

/-- Appending an entry with a fresh key to an association list leaves the
lookup of every other key unchanged. -/
theorem alookup_append_ne {β : Type} (st : List (Nat × β)) (k k' : Nat)
    (x : β) (h : k' ≠ k) : alookup (st ++ [(k, x)]) k' = alookup st k' := by
  induction st with
  | nil =>
    unfold alookup
    simp [Ne.symm h, alookup]
  | cons hd t ih =>
    unfold alookup
    split_ifs <;> simp_all

/-- The reverts component threaded through `extendStateLoop`: when the
upper state's addresses are pairwise distinct, every upper revert entry
ends up rewritten by folding `fixupRevert` over the lower accounts found
at the upper state's addresses, in upper-state order. -/
theorem extendStateLoop_reverts (entries : List (Nat × BundleAccount)) :
    ∀ (st : List (Nat × BundleAccount)) (revs : List (List (Nat × AccountRevert))),
      (entries.map Prod.fst).Nodup →
      (extendStateLoop st entries revs).2 =
        revs.map (List.map (fun p =>
          (p.1, (entries.filterMap (fun q => alookup st q.1)).foldl
            (fun r acc => fixupRevert acc r) p.2))) := by
  induction entries with
  | nil =>
    intro st revs _
    simp [extendStateLoop]
  | cons hd rest ih =>
    obtain ⟨addr, oacc⟩ := hd
    intro st revs hnd
    rw [List.map_cons, List.nodup_cons] at hnd
    obtain ⟨haddr, hrest⟩ := hnd
    have hne : ∀ q ∈ rest, q.1 ≠ addr := by
      intro q hq hcontra
      have hmem : q.1 ∈ List.map Prod.fst rest := List.mem_map_of_mem Prod.fst hq
      rw [hcontra] at hmem
      exact haddr hmem
    cases hl : alookup st addr with
    | some this =>
      have hstep : extendStateLoop st ((addr, oacc) :: rest) revs =
          extendStateLoop (aupdate st addr
              { info := oacc.info
                originalInfo := this.originalInfo
                storage :=
                  if oacc.wasDestroyed then oacc.storage
                  else extendStorage this.storage oacc.storage
                status := this.status.transition oacc.status })
            rest (revs.map (List.map (fun p => (p.1, fixupRevert this p.2)))) := by
        conv_lhs => rw [extendStateLoop]
        rw [hl]
      rw [hstep, ih _ _ hrest]
      have hsame : rest.filterMap (fun q => alookup (aupdate st addr
            { info := oacc.info
              originalInfo := this.originalInfo
              storage :=
                if oacc.wasDestroyed then oacc.storage
                else extendStorage this.storage oacc.storage
              status := this.status.transition oacc.status }) q.1) =
          rest.filterMap (fun q => alookup st q.1) :=
        List.filterMap_congr (fun q hq => alookup_aupdate_ne st addr q.1 _ (hne q hq))
      rw [hsame]
      simp [List.map_map, Function.comp, List.filterMap_cons, hl]
    | none =>
      have hstep : extendStateLoop st ((addr, oacc) :: rest) revs =
          extendStateLoop (st ++ [(addr, oacc)]) rest revs := by
        conv_lhs => rw [extendStateLoop]
        rw [hl]
      rw [hstep, ih _ _ hrest]
      have hsame : rest.filterMap (fun q => alookup (st ++ [(addr, oacc)]) q.1) =
          rest.filterMap (fun q => alookup st q.1) :=
        List.filterMap_congr (fun q hq => alookup_append_ne st addr q.1 _ (hne q hq))
      rw [hsame]
      simp [List.filterMap_cons, hl]

/-- C9 (amended): during `b.extend(o)` the wipe-revert fixup is keyed by
the addresses shared between `b.state` and `o.state`, not by the revert
entry's own address: every revert entry of `o` — at any address — is
rewritten by folding the fixup over the lower bundle's accounts at `o`'s
state addresses, in `o`'s state iteration order; each such account in
turn copies its storage slots into the entry (filling only missing keys)
and clears the `wipe_storage` flag when it was destroyed, but only while
the entry's flag is still set — once the flag is cleared, later shared
accounts leave the entry unchanged; afterwards all of `o`'s rewritten
reverts are appended after `b`'s reverts. The hypothesis is the
upper state map's key uniqueness, which the source guarantees by
construction (`HashMap`). -/
theorem C9_extend_fixup_fold (b o : BundleState)
    (hnd : (o.state.map Prod.fst).Nodup) :
    (b.extend o).reverts =
      b.reverts ++ o.reverts.map (List.map (fun p =>
        (p.1, (o.state.filterMap (fun q => alookup b.state q.1)).foldl
          (fun r acc => fixupRevert acc r) p.2))) := by
  show b.reverts ++ (extendStateLoop b.state o.state o.reverts).2 = _
  rw [extendStateLoop_reverts o.state b.state o.reverts hnd]

/-- C9 (witness): the amended theorem applied to the two-shared-address
scenario — the lower bundle holds a destroyed account at address 2
(slot 1 ↦ 7) and a non-destroyed account at address 5 (slot 9 ↦ 3), the
upper bundle holds both addresses and one wipe revert at address 7. The
destroyed account at 2 is folded in first: it contributes slot 1 ↦ 7 and
clears the flag, after which account 5 contributes nothing — the final
revert carries only slot 1 ↦ 7 with `wipe_storage = false` even though
account 5 was never destroyed. -/
theorem C9_extend_fold_witness :
    (BundleState.extend
        ⟨[(2, ⟨none, none, [(1, ⟨0, 7⟩)], .destroyed⟩),
          (5, ⟨none, none, [(9, ⟨0, 3⟩)], .changed⟩)], [], []⟩
        ⟨[(2, ⟨none, none, [], .changed⟩), (5, ⟨none, none, [], .changed⟩)], [],
         [[(7, ⟨.doNothing, [], .changed, true⟩)]]⟩).reverts =
      [] ++ [[(7, ⟨.doNothing, [], .changed, true⟩)]].map (List.map (fun p =>
        (p.1, (([(2, (⟨none, none, [], .changed⟩ : BundleAccount)),
                 (5, (⟨none, none, [], .changed⟩ : BundleAccount))]).filterMap
            (fun q => alookup [(2, (⟨none, none, [(1, ⟨0, 7⟩)], .destroyed⟩ : BundleAccount)),
                               (5, ⟨none, none, [(9, ⟨0, 3⟩)], .changed⟩)] q.1)).foldl
          (fun r acc => fixupRevert acc r) p.2))) ∧
    (BundleState.extend
        ⟨[(2, ⟨none, none, [(1, ⟨0, 7⟩)], .destroyed⟩),
          (5, ⟨none, none, [(9, ⟨0, 3⟩)], .changed⟩)], [], []⟩
        ⟨[(2, ⟨none, none, [], .changed⟩), (5, ⟨none, none, [], .changed⟩)], [],
         [[(7, ⟨.doNothing, [], .changed, true⟩)]]⟩).reverts =
      [[(7, ⟨.doNothing, [(1, .toValue 7)], .changed, false⟩)]] :=
  ⟨C9_extend_fixup_fold
      ⟨[(2, ⟨none, none, [(1, ⟨0, 7⟩)], .destroyed⟩),
        (5, ⟨none, none, [(9, ⟨0, 3⟩)], .changed⟩)], [], []⟩
      ⟨[(2, ⟨none, none, [], .changed⟩), (5, ⟨none, none, [], .changed⟩)], [],
       [[(7, ⟨.doNothing, [], .changed, true⟩)]]⟩ (by decide),
   by decide⟩

end RevmModel
